import Mathlib

/-!
Shallow embedding of `src/agentops/llm_tracker.py` (class `LlmTracker`).

Python dictionaries with possibly-missing keys are embedded as structures
whose fields are `Option`-valued: `none` models a missing key (a `KeyError`
or `AttributeError` on access), `some v` a present value.  The nullable
`finish_reason` field of a chunk choice is therefore `Option (Option String)`:
the outer layer models key presence, the inner layer Python `None`.

Timestamps are modelled as natural numbers drawn from a strictly monotone
clock held in the tracker state; the ISO-8601 string representation produced
by the real clock is order-preserving, so `Nat` with `≤` is a faithful
abstraction for the ordering claims.

Exceptions that the source catches with a bare `except:` are modelled by
total functions that take the logging branch; exceptions that the source
lets propagate (`ValueError`, `AttributeError`, `KeyError` in the
installation path) are modelled with an explicit error value.
-/

namespace AgentOpsTracker

/-- Prompt messages, the value stored under the `"messages"` keyword argument.
The tracker never inspects individual messages, so their type is kept
abstract as a list of strings. -/
abbrev Messages := List String

/-- The keyword arguments of an intercepted call.  The tracker only ever
reads `kwargs["messages"]`; `none` models a call made without a `messages`
keyword (the lookup raises `KeyError`). -/
structure Kwargs where
  messages : Option Messages
deriving DecidableEq, Repr

/-- The `delta` dictionary of a streamed chunk's first choice.  The source
reads it with `.get('content', '')`, so a missing `content` key is not an
error. -/
structure Delta where
  content : Option String
deriving DecidableEq, Repr

/-- One element of a streamed chunk's `choices` list. -/
structure Choice where
  delta : Option Delta
  finish_reason : Option (Option String)
deriving DecidableEq, Repr

/-- A streamed chunk, a dictionary in the source (`chunk['model']`,
`chunk['choices']`). -/
structure Chunk where
  model : Option String
  choices : Option (List Choice)
deriving DecidableEq, Repr

/-- The `message` object of an object-attribute-style (new openai dialect)
atomic response choice.  The source stores the whole message object in the
event's returns payload, so its own fields are abstracted to its text. -/
structure ObjMessage where
  content : String
deriving DecidableEq, Repr

/-- One element of an object-style atomic response's `choices`. -/
structure ObjChoice where
  message : ObjMessage
deriving DecidableEq, Repr

/-- An object-attribute-style atomic response (`response.object`,
`response.choices`, `response.model`); a `none` field models a missing
attribute (`AttributeError`). -/
structure ObjResponse where
  object : Option String
  choices : Option (List ObjChoice)
  model : Option String
deriving DecidableEq, Repr

/-- The `message` dictionary of a mapping-style (legacy dict dialect) atomic
response choice (`response['choices'][0]['message']['content']`). -/
structure DictMessage where
  content : Option String
deriving DecidableEq, Repr

/-- One element of a mapping-style atomic response's `choices`. -/
structure DictChoice where
  message : Option DictMessage
deriving DecidableEq, Repr

/-- A mapping-style atomic response (`response['object']`,
`response['choices']`, `response['model']`); a `none` field models a
missing key (`KeyError`). -/
structure DictResponse where
  object : Option String
  choices : Option (List DictChoice)
  model : Option String
deriving DecidableEq, Repr

/-- An atomic (non-streamed) raw result, in one of the two response-shape
dialects.  Attribute access on a mapping fails (`AttributeError`), and
subscripting an attribute-style object fails (`TypeError`); both failures
are caught by the handlers' bare `except:`. -/
inductive Atomic where
  | obj : ObjResponse → Atomic
  | dict : DictResponse → Atomic
deriving DecidableEq, Repr

/-- A raw result of an intercepted call: an async generator of chunks, a
sync generator of chunks, or an atomic response
(`inspect.isasyncgen` / `inspect.isgenerator` dispatch). -/
inductive Response where
  | asyncStream : List Chunk → Response
  | syncStream : List Chunk → Response
  | atomic : Atomic → Response
deriving DecidableEq, Repr

/-- The `returns` payload of an Event: stream events carry
`{"finish_reason": ..., "content": token-concatenation}`, the
object-dialect atomic handler stores the whole message object under
`"content"`, and the dict-dialect atomic handler stores the message's
content string. -/
inductive Returns where
  | stream : Option String → String → Returns
  | atomicMsg : ObjMessage → Returns
  | atomicStr : String → Returns
deriving DecidableEq, Repr

/-- Modelled from the spec: the Event record (`src/agentops/event.py` is not
part of the given sources; §6 "Event constructor collaborator" lists its
fields: event type, params, result status, returns payload, action type,
model, prompt, start timestamp, and a mutable end timestamp). -/
structure Event where
  event_type : String
  params : Kwargs
  result : String
  returns : Returns
  action_type : String
  model : String
  prompt : Messages
  init_timestamp : Nat
  end_timestamp : Nat
deriving DecidableEq, Repr

/-- The mutable state touched by one `LlmTracker` instance: the single
open-stream slot `self.event_stream`, the sink (`self.client.record`
accumulates into `recorded`, modelled from the spec's §6 sink collaborator),
the clock, and a count of diagnostic messages printed by the bare
`except:` handlers. -/
structure TrackerState where
  event_stream : Option Event
  recorded : List Event
  clock : Nat
  logs : Nat
deriving DecidableEq, Repr

/-- Modelled from the spec: the clock collaborator `get_ISO_time`
(`src/agentops/helpers.py` is not part of the given sources; §6 "Clock
collaborator" produces a timestamp once per call start and once per event
completion).  Each call returns the current instant and advances the
clock, so successive timestamps are strictly increasing. -/
def get_ISO_time (s : TrackerState) : Nat × TrackerState :=
  (s.clock, { s with clock := s.clock + 1 })

/-- Record one diagnostic `print` from a bare `except:` handler. -/
def logError (s : TrackerState) : TrackerState :=
  { s with logs := s.logs + 1 }

/-- The parsing prefix of `handle_stream_chunk` (lines 33-36): read
`chunk['model']`, `chunk['choices']`, `choices[0]['delta'].get('content', '')`
and `choices[0]['finish_reason']`; any missing key, missing attribute or
empty `choices` list raises, which the caller's bare `except:` turns into a
log line.  All four reads happen before any state is mutated. -/
def parseChunk (chunk : Chunk) : Option (String × String × Option String) := do
  let model ← chunk.model
  let choices ← chunk.choices
  let c0 ← choices.head?
  let d ← c0.delta
  let token := d.content.getD ""
  let finish_reason ← c0.finish_reason
  pure (model, token, finish_reason)

/-- Modelled from the spec: the Event constructor (§6) receives the fields
below and, per §4.3 ("one complete Event with both start and end
timestamp"), stamps the end timestamp from the clock at construction time;
the field remains mutable and is overwritten at stream finalization. -/
def mkEvent (event_type : String) (params : Kwargs) (result : String)
    (returns : Returns) (action_type : String) (model : String)
    (prompt : Messages) (init_timestamp : Nat) (s : TrackerState) :
    Event × TrackerState :=
  let (t, s1) := get_ISO_time s
  ({ event_type := event_type, params := params, result := result,
     returns := returns, action_type := action_type, model := model,
     prompt := prompt, init_timestamp := init_timestamp,
     end_timestamp := t }, s1)

/-- Python truthiness of the nullable `finish_reason` string
(`if finish_reason:`): `None` and the empty string are falsy. -/
def truthyStr : Option String → Bool
  | none => false
  | some f => f != ""

/-- The assignment `self.event_stream.returns['finish_reason'] = fr` on a
stream-shaped returns payload; on any other payload the open-slot invariant
makes this unreachable. -/
def setFinishReason : Returns → Option String → Returns
  | .stream _ c, fr => .stream fr c
  | r, _ => r

/-- Lines 53-58 of `handle_stream_chunk`: when the parsed finish reason is
truthy, set it on the open event, stamp the end timestamp, hand the event
to the sink, and clear the open-stream slot; otherwise do nothing. -/
def emitIfFinished (s : TrackerState) (finish_reason : Option String) :
    TrackerState :=
  if truthyStr finish_reason then
    match s.event_stream with
    | some ev =>
      let (tEnd, s1) := get_ISO_time s
      { s1 with
        recorded := s1.recorded ++
          [{ ev with returns := setFinishReason ev.returns finish_reason,
                     end_timestamp := tEnd }],
        event_stream := none }
    | none => s
  else s

/-- The inner closure `handle_stream_chunk` of `_handle_response_openai`
(lines 31-61; the closure in `_handle_async_response_openai`, lines 98-129,
is textually identical and is embedded by this same function).  Parsing
happens first; on the first chunk of a stream an Event is created (reading
`kwargs["messages"]`, whose absence raises inside the constructor call and
is caught before any state is mutated), on later chunks the token is
appended to the open event's content (appending to a non-string content,
impossible through this code path, would raise and be caught); finally a
truthy finish reason finalizes and emits.  The bare `except:` turns every
failure into a diagnostic log line and leaves the state untouched. -/
def handle_stream_chunk (kwargs : Kwargs) (init_timestamp : Nat)
    (s : TrackerState) (chunk : Chunk) : TrackerState :=
  match parseChunk chunk with
  | none => logError s
  | some (model, token, finish_reason) =>
    match s.event_stream with
    | none =>
      match kwargs.messages with
      | none => logError s
      | some msgs =>
        let (ev, s1) := mkEvent "openai stream" kwargs "Success"
          (.stream none token) "llm" model msgs init_timestamp s
        emitIfFinished { s1 with event_stream := some ev } finish_reason
    | some ev =>
      match ev.returns with
      | .stream fr c =>
        emitIfFinished
          { s with event_stream := some { ev with returns := .stream fr (c ++ token) } }
          finish_reason
      | _ => logError s

/-- The wrapping generator of `_handle_response_openai` (lines 65-78):
`for chunk in response: handle_stream_chunk(chunk); yield chunk`.  Consuming
the first `k` elements of the lazy generator corresponds to running this
function on the length-`k` prefix of the upstream chunk list; the second
component is the list of chunks yielded to the caller. -/
def runStream (kwargs : Kwargs) (init_timestamp : Nat) :
    TrackerState → List Chunk → TrackerState × List Chunk
  | s, [] => (s, [])
  | s, chunk :: rest =>
    let s1 := handle_stream_chunk kwargs init_timestamp s chunk
    let (s2, out) := runStream kwargs init_timestamp s1 rest
    (s2, chunk :: out)

/-- What `_handle_response_openai` hands back to the wrapped method's
caller: the raw response itself (atomic branch), or the freshly created
wrapping generator layered over the upstream chunks (streaming branches). -/
inductive HandlerResult where
  | raw : Response → HandlerResult
  | gen : List Chunk → HandlerResult
deriving DecidableEq, Repr

/-- The atomic-branch field reads of `_handle_response_openai` (lines
82-90): `response.object`, `response.choices[0].message`, `response.model`.
On a mapping-style value every attribute access raises `AttributeError`,
so parsing fails. -/
def parseResponseObj : Atomic → Option (String × ObjMessage × String)
  | .obj r => do
    let o ← r.object
    let cs ← r.choices
    let c0 ← cs.head?
    let m ← r.model
    pure (o, c0.message, m)
  | .dict _ => none

/-- The atomic-branch field reads of `_handle_async_response_openai`
(lines 150-158): `response['object']`,
`response['choices'][0]['message']['content']`, `response['model']`.
Subscripting an attribute-style object raises `TypeError`, so parsing
fails. -/
def parseResponseDict : Atomic → Option (String × String × String)
  | .dict r => do
    let o ← r.object
    let cs ← r.choices
    let c0 ← cs.head?
    let m ← c0.message
    let content ← m.content
    let mdl ← r.model
    pure (o, content, mdl)
  | .obj _ => none

/-- `_handle_response_openai` (lines 30-96): an async or sync generator is
wrapped by the pass-through generator (whose lazy body is `runStream`) and
the generator object is returned with no immediate state change; an atomic
response is parsed (also reading `kwargs['messages']`), one complete Event
is recorded on success, a diagnostic is logged on failure, and the raw
response is returned either way. -/
def _handle_response_openai (kwargs : Kwargs) (init_timestamp : Nat)
    (s : TrackerState) (response : Response) : TrackerState × HandlerResult :=
  match response with
  | .asyncStream chunks => (s, .gen chunks)
  | .syncStream chunks => (s, .gen chunks)
  | .atomic a =>
    match parseResponseObj a, kwargs.messages with
    | some (o, msg, mdl), some msgs =>
      let (ev, s1) := mkEvent o kwargs "Success" (.atomicMsg msg) "llm" mdl
        msgs init_timestamp s
      ({ s1 with recorded := s1.recorded ++ [ev] }, .raw response)
    | _, _ => (logError s, .raw response)

/-- `_handle_async_response_openai` (lines 98-165): identical to the
synchronous handler except that its atomic branch reads the mapping-style
fields and stores the message's content string in the returns payload. -/
def _handle_async_response_openai (kwargs : Kwargs) (init_timestamp : Nat)
    (s : TrackerState) (response : Response) : TrackerState × HandlerResult :=
  match response with
  | .asyncStream chunks => (s, .gen chunks)
  | .syncStream chunks => (s, .gen chunks)
  | .atomic a =>
    match parseResponseDict a, kwargs.messages with
    | some (o, content, mdl), some msgs =>
      let (ev, s1) := mkEvent o kwargs "Success" (.atomicStr content) "llm"
        mdl msgs init_timestamp s
      ({ s1 with recorded := s1.recorded ++ [ev] }, .raw response)
    | _, _ => (logError s, .raw response)

/-- The inner `handle_response` of `_override_method` (lines 168-172):
route the result to `_handle_response_openai` for the `"openai"` api,
return it unchanged otherwise. -/
def handle_response (api : String) (s : TrackerState) (result : Response)
    (kwargs : Kwargs) (init_timestamp : Nat) : TrackerState × HandlerResult :=
  if api == "openai" then _handle_response_openai kwargs init_timestamp s result
  else (s, .raw result)

/-- The wrapper built by `wrap_method` (lines 174-189); `sync_method` and
`async_method` have the same state semantics (the coroutine wrapper merely
awaits the original), so one embedding covers both.  The original call is
abstracted by its outcome `original_result` and the time `elapsed` it
consumed: the wrapper draws the start timestamp, invokes the original with
the exact arguments received, and hands the raw result to
`handle_response`, returning exactly its return value. -/
def sync_method (api : String) (original_result : Response) (elapsed : Nat)
    (kwargs : Kwargs) (s : TrackerState) : TrackerState × HandlerResult :=
  let (init_timestamp, s1) := get_ISO_time s
  let s2 := { s1 with clock := s1.clock + elapsed }
  handle_response api s2 original_result kwargs init_timestamp

/-- The closure installed by `override_openai_completion` (lines 229-241):
print three debug lines, call the original, pass the result to
`_handle_response_openai` with a timestamp taken after completion,
discard the handler's return value, and return the raw result. -/
def patched_function (s : TrackerState) (kwargs : Kwargs)
    (original_result : Response) : TrackerState × Response :=
  let s0 := logError (logError (logError s))
  let (t, s1) := get_ISO_time s0
  let (s2, _discarded) := _handle_response_openai kwargs t s1 original_result
  (s2, original_result)

/-- The closure installed by `override_openai_async_completion`
(lines 250-257): print one debug line, call the original (whose un-awaited
coroutine is the raw result), pass the result to `_handle_response_openai`,
discard the handler's return value, and return the raw result. -/
def patched_async_function (s : TrackerState) (kwargs : Kwargs)
    (original_result : Response) : TrackerState × Response :=
  let s0 := logError s
  let (t, s1) := get_ISO_time s0
  let (s2, _discarded) := _handle_response_openai kwargs t s1 original_result
  (s2, original_result)

/-- A semantic version, as produced by `packaging.version.parse` on the
release triples used by the registry and the claims. -/
structure Version where
  major : Nat
  minor : Nat
  patch : Nat
deriving DecidableEq, Repr

/-- Semantic-version comparison `a ≤ b` (lexicographic on the triple),
the order used by `packaging.version`. -/
def verLe (a b : Version) : Bool :=
  decide (a.major < b.major ∨ (a.major = b.major ∧
    (a.minor < b.minor ∨ (a.minor = b.minor ∧ a.patch ≤ b.patch))))

/-- The errors that the installation path lets propagate: the source raises
`ValueError` for an unregistered provider (the spec names it
`UnsupportedProviderError`), `AttributeError` for an unresolvable method
path (the spec names it `AttributeResolutionError`), and an absent
`'0.0.0'` registry key would raise `KeyError`. -/
inductive TrackErr where
  | unsupportedProviderError
  | attributeResolutionError
  | keyError
deriving DecidableEq, Repr

/-- A module/object graph node: an object with named attributes, a plain or
coroutine method (`inspect.iscoroutinefunction` distinguishes them), or a
wrapper produced by `wrap_method` around an original (the coroutine wrapper
is itself a coroutine function, so wrapping preserves awaitability). -/
inductive ObjTree where
  | node : List (String × ObjTree) → ObjTree
  | method : Bool → ObjTree
  | wrapped : ObjTree → ObjTree

/-- Python `getattr`: look the name up among an object's attributes;
methods and wrappers expose no attributes the tracker ever reads. -/
def getattrTree : ObjTree → String → Option ObjTree
  | .node attrs, name => (attrs.find? (fun p => p.1 == name)).map Prod.snd
  | .method _, _ => none
  | .wrapped _, _ => none

/-- `functools.reduce(getattr, parts, module)` (line 192): walk the dotted
path; `none` models the `AttributeError` raised at the first missing
attribute. -/
def resolvePath (m : ObjTree) : List String → Option ObjTree
  | [] => some m
  | p :: ps =>
    match getattrTree m p with
    | none => none
    | some child => resolvePath child ps

/-- Replace (or add) one attribute in an attribute list, as `setattr`
does. -/
def setattrList (attrs : List (String × ObjTree)) (name : String)
    (v : ObjTree) : List (String × ObjTree) :=
  match attrs with
  | [] => [(name, v)]
  | (n, t) :: rest =>
    if n == name then (n, v) :: rest else (n, t) :: setattrList rest name v

/-- Python `setattr` on one object; setting an attribute on a method or
wrapper never happens on the paths the tracker installs. -/
def setattrTree : ObjTree → String → ObjTree → ObjTree
  | .node attrs, name, v => .node (setattrList attrs name v)
  | t, _, _ => t

/-- In-place `setattr` on the object reached by the path's prefix, seen
from the module root: the graph is a tree, so mutating the parent object is
replacing the attribute at the end of the path. -/
def setattrPath : ObjTree → List String → ObjTree → ObjTree
  | m, [last], v => setattrTree m last v
  | m, p :: ps, v =>
    match getattrTree m p with
    | some child => setattrTree m p (setattrPath child ps v)
    | none => m
  | m, [], _v => m

/-- `wrap_method` (lines 174-189) as a graph value: a wrapper holding the
original method. -/
def wrap_method (original : ObjTree) : ObjTree :=
  .wrapped original

/-- Split a character list at every occurrence of the separator, keeping
empty pieces, as Python `str.split` does. -/
def splitChars (sep : Char) : List Char → List (List Char)
  | [] => [[]]
  | c :: cs =>
    if c = sep then [] :: splitChars sep cs
    else
      match splitChars sep cs with
      | [] => [[c]]
      | p :: ps => (c :: p) :: ps

/-- Python `method_path.split(".")` (line 191), implemented structurally
over the string's characters. -/
def splitOnDot (s : String) : List String :=
  (splitChars '.' s.data).map (fun l => ⟨l⟩)

/-- `_override_method` (lines 167-199): split the dotted path, resolve the
original method (an unresolvable path raises before anything is mutated,
so the graph is returned to the caller unmodified), build the wrapper, and
`setattr` it on the module itself for a single-segment path or on the
re-resolved parent otherwise. -/
def _override_method (method_path : String) (module : ObjTree) :
    Except TrackErr ObjTree :=
  let method_parts := splitOnDot method_path
  match resolvePath module method_parts with
  | none => .error .attributeResolutionError
  | some original_method =>
    let new_method := wrap_method original_method
    if method_parts.length == 1 then
      .ok (setattrTree module (method_parts.headD "") new_method)
    else
      match resolvePath module method_parts.dropLast with
      | none => .error .attributeResolutionError
      | some _parent => .ok (setattrPath module method_parts new_method)

/-- The provider registry `SUPPORTED_APIS['openai']` (lines 11-22), in its
source order: version `1.0.0` maps to the new-dialect path, version `0.0.0`
(no version detected) to the two legacy paths. -/
def openaiVersions : List (Version × List String) :=
  [(⟨1, 0, 0⟩, ["chat.completions.create"]),
   (⟨0, 0, 0⟩, ["ChatCompletion.create", "ChatCompletion.acreate"])]

/-- The class attribute `SUPPORTED_APIS` (lines 11-22). -/
def SUPPORTED_APIS : List (String × List (Version × List String)) :=
  [("openai", openaiVersions)]

/-- Insert one registry entry into a list already sorted by descending
version. -/
def insertDesc (x : Version × List String) :
    List (Version × List String) → List (Version × List String)
  | [] => [x]
  | y :: ys => if verLe y.1 x.1 then x :: y :: ys else y :: insertDesc x ys

/-- `sorted(self.SUPPORTED_APIS[api], key=parse, reverse=True)` (line 213):
the registry entries by descending semantic version. -/
def sortDesc : List (Version × List String) → List (Version × List String)
  | [] => []
  | x :: xs => insertDesc x (sortDesc xs)

/-- The Version Resolver (lines 211-217): iterate the registered versions
in descending order and select the method-path set of the first registered
version that is ≤ the module version; `none` when no registered version
qualifies (the loop falls through without installing). -/
def resolveMethodPaths (registry : List (Version × List String))
    (module_version : Version) : Option (List String) :=
  ((sortDesc registry).find? (fun p => verLe p.1 module_version)).map Prod.snd

/-- The legacy branch of `override_api` (line 219): the direct lookup
`SUPPORTED_APIS[api]['0.0.0']` taken when the module exposes no
`__version__`. -/
def legacyMethodPaths (registry : List (Version × List String)) :
    Option (List String) :=
  (registry.find? (fun p => p.1 == (⟨0, 0, 0⟩ : Version))).map Prod.snd

/-- An imported provider module: its optional `__version__` attribute and
its object graph. -/
structure PyModule where
  version : Option Version
  tree : ObjTree

/-- `api in sys.modules` / `import_module(api)` for an already-loaded
module: look the module up by name. -/
def lookupModule (sys_modules : List (String × PyModule)) (api : String) :
    Option PyModule :=
  (sys_modules.find? (fun p => p.1 == api)).map Prod.snd

/-- Replace a loaded module's entry after its graph was mutated in place. -/
def updateModule (sys_modules : List (String × PyModule)) (api : String)
    (m : PyModule) : List (String × PyModule) :=
  sys_modules.map (fun p => if p.1 == api then (p.1, m) else p)

/-- Install wrappers at each path in turn; Python mutates the module in
place, so paths installed before a failing one stay installed and the
error then propagates. -/
def installAll (paths : List String) (m : ObjTree) :
    ObjTree × Option TrackErr :=
  match paths with
  | [] => (m, none)
  | p :: ps =>
    match _override_method p m with
    | .error e => (m, some e)
    | .ok m1 => installAll ps m1

/-- The versioned installation loop of `override_api` (lines 213-217):
walk the descending-sorted registry, install the first qualifying
version's paths, and break. -/
def installLoop (sorted_registry : List (Version × List String))
    (module_version : Version) (m : ObjTree) : ObjTree × Option TrackErr :=
  match sorted_registry with
  | [] => (m, none)
  | (v, paths) :: rest =>
    if verLe v module_version then installAll paths m
    else installLoop rest module_version m

/-- `override_api` (lines 201-220): do nothing at all when no module of
that name is loaded; raise for a loaded module of an unregistered provider;
otherwise resolve the applicable version's method paths (the legacy set
when no `__version__` is exposed) and install wrappers at them, mutating
the loaded module in place. -/
def override_api (sys_modules : List (String × PyModule)) (api : String) :
    List (String × PyModule) × Option TrackErr :=
  match lookupModule sys_modules api with
  | none => (sys_modules, none)
  | some module =>
    match (SUPPORTED_APIS.find? (fun p => p.1 == api)).map Prod.snd with
    | none => (sys_modules, some .unsupportedProviderError)
    | some registry =>
      match module.version with
      | some module_version =>
        let (tree1, err) := installLoop (sortDesc registry) module_version
          module.tree
        (updateModule sys_modules api { module with tree := tree1 }, err)
      | none =>
        match legacyMethodPaths registry with
        | none => (sys_modules, some .keyError)
        | some paths =>
          let (tree1, err) := installAll paths module.tree
          (updateModule sys_modules api { module with tree := tree1 }, err)

/-- Concatenation of a list of tokens in arrival order, used to state the
stream-accumulation claims. -/
def concatStr : List String → String
  | [] => ""
  | t :: ts => t ++ concatStr ts

/-! ## Helper lemmas -/

theorem concatStr_append (xs ys : List String) :
    concatStr (xs ++ ys) = concatStr xs ++ concatStr ys := by
  induction xs with
  | nil => simp [concatStr]
  | cons x xs ih => simp [concatStr, ih, String.append_assoc]

theorem runStream_nil (kwargs : Kwargs) (it : Nat) (s : TrackerState) :
    runStream kwargs it s [] = (s, []) := rfl

theorem runStream_cons (kwargs : Kwargs) (it : Nat) (s : TrackerState)
    (c : Chunk) (cs : List Chunk) :
    runStream kwargs it s (c :: cs) =
      ((runStream kwargs it (handle_stream_chunk kwargs it s c) cs).1,
       c :: (runStream kwargs it (handle_stream_chunk kwargs it s c) cs).2) := rfl

theorem runStream_yields (kwargs : Kwargs) (it : Nat) :
    ∀ (cs : List Chunk) (s : TrackerState),
      (runStream kwargs it s cs).2 = cs := by
  intro cs
  induction cs with
  | nil => intro s; rfl
  | cons c rest ih => intro s; rw [runStream_cons, ih]

theorem runStream_append (kwargs : Kwargs) (it : Nat) :
    ∀ (xs ys : List Chunk) (s : TrackerState),
      (runStream kwargs it s (xs ++ ys)).1 =
        (runStream kwargs it (runStream kwargs it s xs).1 ys).1 := by
  intro xs
  induction xs with
  | nil => intro ys s; rfl
  | cons x xs ih =>
    intro ys s
    rw [List.cons_append, runStream_cons, runStream_cons, ih]

theorem emitIfFinished_none (s : TrackerState) :
    emitIfFinished s none = s := rfl

theorem emitIfFinished_some (s : TrackerState) (ev : Event) (fr : String)
    (hfr : fr ≠ "") (hs : s.event_stream = some ev) :
    emitIfFinished s (some fr) =
      { s with
        clock := s.clock + 1,
        recorded := s.recorded ++
          [{ ev with returns := setFinishReason ev.returns (some fr),
                     end_timestamp := s.clock }],
        event_stream := none } := by
  simp [emitIfFinished, truthyStr, bne_iff_ne, hfr, hs, get_ISO_time]

theorem hsc_parse_fail (kwargs : Kwargs) (it : Nat) (s : TrackerState)
    (c : Chunk) (h : parseChunk c = none) :
    handle_stream_chunk kwargs it s c = logError s := by
  simp [handle_stream_chunk, h]

theorem hsc_create (kwargs : Kwargs) (it : Nat) (s : TrackerState) (c : Chunk)
    (m tk : String) (fr : Option String) (msgs : Messages)
    (h : parseChunk c = some (m, tk, fr)) (hs : s.event_stream = none)
    (hm : kwargs.messages = some msgs) :
    handle_stream_chunk kwargs it s c =
      emitIfFinished
        { s with
          clock := s.clock + 1,
          event_stream := some
            { event_type := "openai stream", params := kwargs,
              result := "Success", returns := .stream none tk,
              action_type := "llm", model := m, prompt := msgs,
              init_timestamp := it, end_timestamp := s.clock } } fr := by
  simp [handle_stream_chunk, h, hs, hm, mkEvent, get_ISO_time]

theorem hsc_append (kwargs : Kwargs) (it : Nat) (s : TrackerState) (c : Chunk)
    (m tk : String) (fr fr0 : Option String) (c0 : String) (ev : Event)
    (h : parseChunk c = some (m, tk, fr)) (hs : s.event_stream = some ev)
    (hr : ev.returns = .stream fr0 c0) :
    handle_stream_chunk kwargs it s c =
      emitIfFinished
        { s with event_stream := some { ev with returns := .stream fr0 (c0 ++ tk) } }
        fr := by
  simp [handle_stream_chunk, h, hs, hr]

/-- Folding the accumulator over a run of parseable chunks whose finish
reasons are all null appends their tokens to the open event and touches
nothing else. -/
theorem runStream_open_appends (kwargs : Kwargs) (it : Nat) :
    ∀ (cs : List Chunk) (toks : List String) (s : TrackerState) (ev : Event)
      (c0 : String),
      s.event_stream = some ev → ev.returns = .stream none c0 →
      List.Forall₂ (fun c tk => ∃ mo, parseChunk c = some (mo, tk, none))
        cs toks →
      (runStream kwargs it s cs).1 =
        { s with event_stream :=
            (some { ev with returns := .stream none (c0 ++ concatStr toks) }) } := by
  intro cs toks s ev c0 hs hr hall
  induction hall generalizing s ev c0 with
  | nil =>
    rw [runStream_nil]
    cases s with
    | mk es rec ck lg =>
      simp only at hs
      subst hs
      simp [concatStr]
      cases ev with
      | mk a b c d e f g h i => simp only at hr; subst hr; rfl
  | @cons c tk cs' toks' hP _hall ih =>
    obtain ⟨mo, hparse⟩ := hP
    rw [runStream_cons,
        hsc_append kwargs it s c mo tk none none c0 ev hparse hs hr,
        emitIfFinished_none]
    rw [ih _ _ (c0 ++ tk) rfl rfl]
    simp [concatStr, String.append_assoc]

/-- A chunk that parses with a null finish reason, or fails to parse,
never hands an event to the sink. -/
theorem hsc_nonterminal_recorded (kwargs : Kwargs) (it : Nat)
    (s : TrackerState) (c : Chunk)
    (h : parseChunk c = none ∨ ∃ m tk, parseChunk c = some (m, tk, none)) :
    (handle_stream_chunk kwargs it s c).recorded = s.recorded := by
  rcases h with h | ⟨m, tk, h⟩
  · rw [hsc_parse_fail kwargs it s c h]; rfl
  · cases hs : s.event_stream with
    | none =>
      cases hm : kwargs.messages with
      | none => simp [handle_stream_chunk, h, hs, hm, logError]
      | some msgs =>
        rw [hsc_create kwargs it s c m tk none msgs h hs hm,
            emitIfFinished_none]
    | some ev =>
      cases hr : ev.returns with
      | stream fr0 c0 =>
        rw [hsc_append kwargs it s c m tk none fr0 c0 ev h hs hr,
            emitIfFinished_none]
      | atomicMsg msg => simp [handle_stream_chunk, h, hs, hr, logError]
      | atomicStr str => simp [handle_stream_chunk, h, hs, hr, logError]

/-! ## Claim theorems -/

/-- C1, counterexample to the claim as stated, in both of its gaps.
First, the empty string is a non-null finish reason, so the singleton
sequence whose one chunk carries `finish_reason = ""` ends in exactly one
terminal chunk in the claim's sense; the claim then demands exactly one
recorded Event, but `if finish_reason:` is false for the empty string, so
the generator records nothing.  Second, when the single shared open-stream
slot still holds an event with accumulated content `"X"` from an earlier
stream, the well-formed sequence `"He"`/`"llo" + "stop"` records an Event
whose content is `"XHello"`, not the concatenation `"Hello"` of this
sequence's tokens. -/
theorem C1_counterexample :
    (runStream ⟨some ["user"]⟩ 0 ⟨none, [], 0, 0⟩
      [⟨some "m", some [⟨some ⟨some "x"⟩, some (some "")⟩]⟩]).1.recorded
      = [] ∧
    ((runStream ⟨some ["user"]⟩ 0
        ⟨some ⟨"openai stream", ⟨some []⟩, "Success", .stream none "X",
          "llm", "m", [], 0, 0⟩, [], 0, 0⟩
        [⟨some "m", some [⟨some ⟨some "He"⟩, some none⟩]⟩,
         ⟨some "m", some [⟨some ⟨some "llo"⟩, some (some "stop")⟩]⟩]).1.recorded.map
      (fun e => e.returns))
      = [Returns.stream (some "stop") "XHello"] :=
  ⟨rfl, rfl⟩

/-- C1 (amended): for every streamed sequence of parseable chunks starting
from a state with no open stream slot and ending in exactly one terminal
chunk — terminal meaning a truthy (non-null and non-empty) finish reason —
processed chunk-by-chunk through the wrapped generator, exactly one Event
is recorded via the sink; its returns content is the concatenation of all
chunk tokens in arrival order (a missing delta content counting as the
empty string, inside `parseChunk`), and its returns finish reason is the
terminal chunk's finish reason. -/
theorem C1_stream_records_one_event (kwargs : Kwargs) (msgs : Messages)
    (it : Nat) (s : TrackerState) (cs : List Chunk) (toks : List String)
    (lastChunk : Chunk) (m tl fr : String)
    (hmsgs : kwargs.messages = some msgs)
    (hslot : s.event_stream = none)
    (hcs : List.Forall₂ (fun c tk => ∃ mo, parseChunk c = some (mo, tk, none))
      cs toks)
    (hlast : parseChunk lastChunk = some (m, tl, some fr))
    (hfr : fr ≠ "") :
    ∃ ev : Event,
      (runStream kwargs it s (cs ++ [lastChunk])).1.recorded
        = s.recorded ++ [ev] ∧
      ev.returns = Returns.stream (some fr) (concatStr (toks ++ [tl])) ∧
      (runStream kwargs it s (cs ++ [lastChunk])).1.event_stream = none := by
  cases hcs with
  | nil =>
    simp only [List.nil_append, runStream_cons, runStream_nil]
    rw [hsc_create kwargs it s lastChunk m tl (some fr) msgs hlast hslot hmsgs,
        emitIfFinished_some _ _ fr hfr rfl]
    refine ⟨_, rfl, ?_, rfl⟩
    simp [setFinishReason, concatStr]
  | @cons c1 t1 cs' toks' hP hall' =>
    obtain ⟨mo, hp1⟩ := hP
    simp only [List.cons_append, runStream_cons]
    rw [hsc_create kwargs it s c1 mo t1 none msgs hp1 hslot hmsgs,
        emitIfFinished_none,
        runStream_append kwargs it cs' [lastChunk],
        runStream_open_appends kwargs it cs' toks' _ _ t1 rfl rfl hall',
        runStream_cons, runStream_nil,
        hsc_append kwargs it _ lastChunk m tl (some fr) none
          (t1 ++ concatStr toks') _ hlast rfl rfl,
        emitIfFinished_some _ _ fr hfr rfl]
    refine ⟨_, rfl, ?_, rfl⟩
    simp [setFinishReason, concatStr, concatStr_append, String.append_assoc]

/-- C1 witness: the spec's own scenario — chunks carrying tokens `"He"` and
`"llo"` with terminal finish reason `"stop"` produce exactly one Event with
content `"Hello"` and finish reason `"stop"`. -/
theorem C1_stream_records_one_event_witness :
    ∃ ev : Event,
      (runStream ⟨some ["user"]⟩ 0 ⟨none, [], 0, 0⟩
        ([⟨some "m", some [⟨some ⟨some "He"⟩, some none⟩]⟩] ++
         [⟨some "m", some [⟨some ⟨some "llo"⟩, some (some "stop")⟩]⟩])).1.recorded
        = [] ++ [ev] ∧
      ev.returns = Returns.stream (some "stop") (concatStr (["He"] ++ ["llo"])) ∧
      (runStream ⟨some ["user"]⟩ 0 ⟨none, [], 0, 0⟩
        ([⟨some "m", some [⟨some ⟨some "He"⟩, some none⟩]⟩] ++
         [⟨some "m", some [⟨some ⟨some "llo"⟩, some (some "stop")⟩]⟩])).1.event_stream
        = none :=
  C1_stream_records_one_event ⟨some ["user"]⟩ ["user"] 0 ⟨none, [], 0, 0⟩
    [⟨some "m", some [⟨some ⟨some "He"⟩, some none⟩]⟩] ["He"]
    ⟨some "m", some [⟨some ⟨some "llo"⟩, some (some "stop")⟩]⟩ "m" "llo" "stop"
    rfl rfl (List.Forall₂.cons ⟨"m", rfl⟩ List.Forall₂.nil) rfl (by decide)

/-- C5: a streamed chunk whose parsing fails only produces a diagnostic log
line; the open-stream slot and the sink are left exactly as they were, no
Event is recorded for that chunk, and the chunk (with the rest of the
stream) is still yielded to the caller untouched. -/
theorem C5_chunk_parse_error_isolated (kwargs : Kwargs) (it : Nat)
    (s : TrackerState) (c : Chunk) (rest : List Chunk)
    (h : parseChunk c = none) :
    handle_stream_chunk kwargs it s c = logError s ∧
    (handle_stream_chunk kwargs it s c).event_stream = s.event_stream ∧
    (handle_stream_chunk kwargs it s c).recorded = s.recorded ∧
    (runStream kwargs it s (c :: rest)).2 = c :: rest := by
  refine ⟨hsc_parse_fail kwargs it s c h, ?_, ?_,
    runStream_yields kwargs it (c :: rest) s⟩
  · rw [hsc_parse_fail kwargs it s c h]; rfl
  · rw [hsc_parse_fail kwargs it s c h]; rfl

/-- C5 witness: a chunk with neither `model` nor `choices` fails to parse
and is handled without touching the open-stream state. -/
theorem C5_chunk_parse_error_isolated_witness :
    parseChunk ⟨none, none⟩ = none ∧
    (handle_stream_chunk ⟨some []⟩ 0 ⟨none, [], 0, 0⟩ ⟨none, none⟩
        = logError ⟨none, [], 0, 0⟩ ∧
      (handle_stream_chunk ⟨some []⟩ 0 ⟨none, [], 0, 0⟩ ⟨none, none⟩).event_stream
        = (⟨none, [], 0, 0⟩ : TrackerState).event_stream ∧
      (handle_stream_chunk ⟨some []⟩ 0 ⟨none, [], 0, 0⟩ ⟨none, none⟩).recorded
        = (⟨none, [], 0, 0⟩ : TrackerState).recorded ∧
      (runStream ⟨some []⟩ 0 ⟨none, [], 0, 0⟩ [⟨none, none⟩]).2
        = [⟨none, none⟩]) :=
  ⟨rfl, C5_chunk_parse_error_isolated ⟨some []⟩ 0 ⟨none, [], 0, 0⟩
    ⟨none, none⟩ [] rfl⟩

/-- C8: if iteration of a streamed sequence is abandoned before any chunk
with a truthy finish reason arrives (every consumed chunk either fails to
parse or parses with a null finish reason), zero Events are recorded via
the sink for that sequence. -/
theorem C8_abandoned_stream_records_nothing (kwargs : Kwargs) (it : Nat) :
    ∀ (consumed : List Chunk) (s : TrackerState),
      (∀ c ∈ consumed,
        parseChunk c = none ∨ ∃ m tk, parseChunk c = some (m, tk, none)) →
      (runStream kwargs it s consumed).1.recorded = s.recorded := by
  intro consumed
  induction consumed with
  | nil => intro s _; rfl
  | cons c rest ih =>
    intro s hall
    calc (runStream kwargs it s (c :: rest)).1.recorded
        = (runStream kwargs it (handle_stream_chunk kwargs it s c) rest).1.recorded := rfl
      _ = (handle_stream_chunk kwargs it s c).recorded :=
          ih _ (fun x hx => hall x (List.mem_cons_of_mem c hx))
      _ = s.recorded :=
          hsc_nonterminal_recorded kwargs it s c (hall c (List.mem_cons_self c rest))

/-- C8 witness: consuming a single null-finish chunk and then abandoning
the stream records nothing. -/
theorem C8_abandoned_stream_records_nothing_witness :
    (runStream ⟨some ["user"]⟩ 0 ⟨none, [], 0, 0⟩
      [⟨some "m", some [⟨some ⟨some "He"⟩, some none⟩]⟩]).1.recorded
      = (⟨none, [], 0, 0⟩ : TrackerState).recorded :=
  C8_abandoned_stream_records_nothing ⟨some ["user"]⟩ 0
    [⟨some "m", some [⟨some ⟨some "He"⟩, some none⟩]⟩] ⟨none, [], 0, 0⟩
    (fun c hc => by
      rw [List.mem_singleton] at hc
      subst hc
      exact Or.inr ⟨"m", "He", rfl⟩)

/-- C2: for an atomic successful call whose start timestamp was drawn from
the clock before handling, each response dialect's handler records exactly
one Event whose start timestamp is at most its end timestamp and whose
returns content is the parsed message content: the object-dialect handler
stores the first choice's message object, the dict-dialect handler stores
the message's content string. -/
theorem C2_atomic_records_one_event (kwargs : Kwargs) (msgs : Messages)
    (it : Nat) (s : TrackerState)
    (hmsgs : kwargs.messages = some msgs) (hts : it ≤ s.clock) :
    (∀ (o mdl : String) (c0 : ObjChoice) (rest : List ObjChoice),
      (_handle_response_openai kwargs it s
        (.atomic (.obj ⟨some o, some (c0 :: rest), some mdl⟩))).1.recorded
        = s.recorded ++
          [{ event_type := o, params := kwargs, result := "Success",
             returns := .atomicMsg c0.message, action_type := "llm",
             model := mdl, prompt := msgs, init_timestamp := it,
             end_timestamp := s.clock }] ∧
      it ≤ s.clock) ∧
    (∀ (o mdl content : String) (rest : List DictChoice),
      (_handle_async_response_openai kwargs it s
        (.atomic (.dict ⟨some o, some (⟨some ⟨some content⟩⟩ :: rest),
          some mdl⟩))).1.recorded
        = s.recorded ++
          [{ event_type := o, params := kwargs, result := "Success",
             returns := .atomicStr content, action_type := "llm",
             model := mdl, prompt := msgs, init_timestamp := it,
             end_timestamp := s.clock }] ∧
      it ≤ s.clock) := by
  constructor
  · intro o mdl c0 rest
    refine ⟨?_, hts⟩
    simp [_handle_response_openai, parseResponseObj, hmsgs, mkEvent,
      get_ISO_time]
  · intro o mdl content rest
    refine ⟨?_, hts⟩
    simp [_handle_async_response_openai, parseResponseDict, hmsgs, mkEvent,
      get_ISO_time]

/-- C2 witness: a concrete well-formed response in each dialect records
exactly one Event with matching content and ordered timestamps. -/
theorem C2_atomic_records_one_event_witness :
    ((⟨some ["user"]⟩ : Kwargs).messages = some ["user"] ∧ 3 ≤ 5) ∧
    (_handle_response_openai ⟨some ["user"]⟩ 3 ⟨none, [], 5, 0⟩
      (.atomic (.obj ⟨some "chat.completion", some [⟨⟨"hi"⟩⟩],
        some "gpt"⟩))).1.recorded
      = [] ++
        [{ event_type := "chat.completion", params := ⟨some ["user"]⟩,
           result := "Success",
           returns := .atomicMsg (⟨⟨"hi"⟩⟩ : ObjChoice).message,
           action_type := "llm", model := "gpt", prompt := ["user"],
           init_timestamp := 3, end_timestamp := 5 }] ∧
    (_handle_async_response_openai ⟨some ["user"]⟩ 3 ⟨none, [], 5, 0⟩
      (.atomic (.dict ⟨some "chat.completion", some [⟨some ⟨some "hi"⟩⟩],
        some "gpt"⟩))).1.recorded
      = [] ++
        [{ event_type := "chat.completion", params := ⟨some ["user"]⟩,
           result := "Success", returns := .atomicStr "hi",
           action_type := "llm", model := "gpt", prompt := ["user"],
           init_timestamp := 3, end_timestamp := 5 }] :=
  ⟨⟨rfl, by decide⟩,
   ((C2_atomic_records_one_event ⟨some ["user"]⟩ ["user"] 3 ⟨none, [], 5, 0⟩
      rfl (by decide)).1 "chat.completion" "gpt" ⟨⟨"hi"⟩⟩ []).1,
   ((C2_atomic_records_one_event ⟨some ["user"]⟩ ["user"] 3 ⟨none, [], 5, 0⟩
      rfl (by decide)).2 "chat.completion" "gpt" "hi" []).1⟩

/-- C3: a wrapped call is transparent — the atomic branch returns the raw
result object itself whether or not parsing succeeds, the streaming
branches return the pass-through generator over exactly the upstream
chunks, and consuming that generator yields exactly the same chunks in the
same order and of the same length. -/
theorem C3_wrapped_call_transparent (kwargs : Kwargs) (s : TrackerState)
    (elapsed : Nat) (it : Nat) :
    (∀ a : Atomic,
      (sync_method "openai" (.atomic a) elapsed kwargs s).2
        = .raw (.atomic a)) ∧
    (∀ chunks : List Chunk,
      (sync_method "openai" (.syncStream chunks) elapsed kwargs s).2
        = .gen chunks) ∧
    (∀ chunks : List Chunk,
      (sync_method "openai" (.asyncStream chunks) elapsed kwargs s).2
        = .gen chunks) ∧
    (∀ (s1 : TrackerState) (chunks : List Chunk),
      (runStream kwargs it s1 chunks).2 = chunks) := by
  refine ⟨?_, fun chunks => rfl, fun chunks => rfl,
    fun s1 chunks => runStream_yields kwargs it chunks s1⟩
  intro a
  simp only [sync_method, handle_response, _handle_response_openai,
    get_ISO_time]
  rcases hp : parseResponseObj a with _ | ⟨o, msg, mdl⟩ <;>
    rcases hm : kwargs.messages with _ | msgs <;>
      simp [hp, hm, mkEvent, get_ISO_time, logError]

/-- The version `0.0.0` is below every version, so the descending scan
always finds a qualifying entry in a registry containing it. -/
theorem verLe_zero (v : Version) : verLe ⟨0, 0, 0⟩ v = true := by
  simp only [verLe, decide_eq_true_eq]
  omega

/-- C4: for the openai registry `{"1.0.0": B-paths, "0.0.0": A-paths}` the
resolver, scanning registered versions in descending semantic-version
order, selects the paths of the first registered version at most the
module version — so any module version at least `1.0.0` (such as `1.2.0`)
resolves to the new path set, any lower version (such as `0.5.0`) to the
legacy set — and a module with no declared version resolves to the legacy
set unconditionally. -/
theorem C4_version_resolution :
    (∀ v : Version,
      resolveMethodPaths openaiVersions v =
        some (if verLe ⟨1, 0, 0⟩ v then ["chat.completions.create"]
          else ["ChatCompletion.create", "ChatCompletion.acreate"])) ∧
    resolveMethodPaths openaiVersions ⟨1, 2, 0⟩
      = some ["chat.completions.create"] ∧
    resolveMethodPaths openaiVersions ⟨0, 5, 0⟩
      = some ["ChatCompletion.create", "ChatCompletion.acreate"] ∧
    legacyMethodPaths openaiVersions
      = some ["ChatCompletion.create", "ChatCompletion.acreate"] := by
  refine ⟨?_, by decide, by decide, by decide⟩
  intro v
  have hsort : sortDesc openaiVersions = openaiVersions := by decide
  unfold resolveMethodPaths
  rw [hsort]
  cases h : verLe ⟨1, 0, 0⟩ v with
  | true => simp [openaiVersions, List.find?, h]
  | false => simp [openaiVersions, List.find?, h, verLe_zero]

/-- C6, counterexample to the claim as stated: `"anthropic"` has no
registry entry, yet requesting interception for it while no module of that
name is loaded returns normally — the `if api in sys.modules:` guard skips
the whole body, so no error is raised. -/
theorem C6_counterexample :
    override_api [] "anthropic" = ([], none) := rfl

/-- C6 (amended): for every provider name that has no registry entry and
whose module is currently loaded, requesting interception raises the
unsupported-provider error synchronously from the installation path. -/
theorem C6_unsupported_raises_when_loaded
    (sys_modules : List (String × PyModule)) (api : String) (m : PyModule)
    (hload : lookupModule sys_modules api = some m)
    (hunsup : SUPPORTED_APIS.find? (fun p => p.1 == api) = none) :
    (override_api sys_modules api).2
      = some TrackErr.unsupportedProviderError := by
  simp [override_api, hload, hunsup]

/-- C6 witness: a loaded `"anthropic"` module triggers the
unsupported-provider error. -/
theorem C6_unsupported_raises_when_loaded_witness :
    lookupModule [("anthropic", ⟨none, .node []⟩)] "anthropic"
      = some ⟨none, .node []⟩ ∧
    SUPPORTED_APIS.find? (fun p => p.1 == "anthropic") = none ∧
    (override_api [("anthropic", ⟨none, .node []⟩)] "anthropic").2
      = some TrackErr.unsupportedProviderError :=
  ⟨rfl, rfl,
   C6_unsupported_raises_when_loaded [("anthropic", ⟨none, .node []⟩)]
     "anthropic" ⟨none, .node []⟩ rfl rfl⟩

/-- C7: a dotted method path that does not resolve by attribute lookup on
the module makes installation fail with the attribute-resolution error
before any `setattr` runs, so no wrapper is installed and the caller's
module graph is left as it was. -/
theorem C7_missing_path_raises (method_path : String) (module : ObjTree)
    (h : resolvePath module (splitOnDot method_path) = none) :
    _override_method method_path module
      = .error TrackErr.attributeResolutionError := by
  simp [_override_method, h]

/-- C7 witness: the spec's scenario — a provider module lacking
`chat.completions.create` raises the attribute-resolution error. -/
theorem C7_missing_path_raises_witness :
    resolvePath (ObjTree.node []) (splitOnDot "chat.completions.create")
      = none ∧
    _override_method "chat.completions.create" (ObjTree.node [])
      = .error TrackErr.attributeResolutionError :=
  ⟨rfl, C7_missing_path_raises "chat.completions.create" (ObjTree.node []) rfl⟩

/-- C9: the constructor-installed patches return the original method's raw
result to the caller and discard the Response Normalizer's return value;
for a streamed raw result the discarded generator is never iterated, so no
chunk reaches the Stream Accumulator and neither the sink nor the
open-stream slot changes through these patches. -/
theorem C9_constructor_patches_transparent (s : TrackerState)
    (kwargs : Kwargs) (r : Response) (chunks : List Chunk) :
    (patched_function s kwargs r).2 = r ∧
    (patched_async_function s kwargs r).2 = r ∧
    (patched_function s kwargs (.syncStream chunks)).1.recorded
      = s.recorded ∧
    (patched_function s kwargs (.syncStream chunks)).1.event_stream
      = s.event_stream ∧
    (patched_function s kwargs (.asyncStream chunks)).1.recorded
      = s.recorded ∧
    (patched_function s kwargs (.asyncStream chunks)).1.event_stream
      = s.event_stream ∧
    (patched_async_function s kwargs (.syncStream chunks)).1.recorded
      = s.recorded ∧
    (patched_async_function s kwargs (.syncStream chunks)).1.event_stream
      = s.event_stream ∧
    (patched_async_function s kwargs (.asyncStream chunks)).1.recorded
      = s.recorded ∧
    (patched_async_function s kwargs (.asyncStream chunks)).1.event_stream
      = s.event_stream := by
  refine ⟨?_, ?_, rfl, rfl, rfl, rfl, rfl, rfl, rfl, rfl⟩ <;>
    cases r with
    | asyncStream cs => rfl
    | syncStream cs => rfl
    | atomic a =>
      rcases hp : parseResponseObj a with _ | ⟨o, msg, mdl⟩ <;>
        rcases hm : kwargs.messages with _ | msgs <;>
          simp [patched_function, patched_async_function,
            _handle_response_openai, hp, hm, mkEvent, get_ISO_time, logError]

/-- C10: `override_api` raises for an unsupported provider exactly when a
module of that name is loaded; for any provider name with no loaded module
it returns with no error and leaves the module table untouched. -/
theorem C10_override_api_loaded_guard (sys_modules : List (String × PyModule))
    (api : String) :
    (lookupModule sys_modules api = none →
      override_api sys_modules api = (sys_modules, none)) ∧
    (∀ m : PyModule, lookupModule sys_modules api = some m →
      SUPPORTED_APIS.find? (fun p => p.1 == api) = none →
      (override_api sys_modules api).2
        = some TrackErr.unsupportedProviderError) := by
  constructor
  · intro h
    simp [override_api, h]
  · intro m hload hunsup
    simp [override_api, hload, hunsup]

/-- C10 witness: an unloaded supported provider installs nothing and
raises nothing, while a loaded unsupported provider raises. -/
theorem C10_override_api_loaded_guard_witness :
    (lookupModule [] "openai" = none ∧ override_api [] "openai" = ([], none)) ∧
    (lookupModule [("anthropic2", ⟨none, .node []⟩)] "anthropic2"
      = some ⟨none, .node []⟩ ∧
     (override_api [("anthropic2", ⟨none, .node []⟩)] "anthropic2").2
      = some TrackErr.unsupportedProviderError) :=
  ⟨⟨rfl, (C10_override_api_loaded_guard [] "openai").1 rfl⟩,
   ⟨rfl, (C10_override_api_loaded_guard [("anthropic2", ⟨none, .node []⟩)]
      "anthropic2").2 ⟨none, .node []⟩ rfl rfl⟩⟩

end AgentOpsTracker
